import Mathlib

/-!
Verification of the SignalTrader signal-to-execution pipeline and the
autonomous position-monitoring loop.

The repository's checked-in sources contain only the React frontend
(`crypto-trading-frontend`) and the deployment documentation; the backend
core (Execution Dispatcher, Position Store, Trailing-Stop Monitor, Paper
Trading Simulator, Signal Intake) is deployed from a separate backend
directory that is not part of these sources.  The backend operations are
therefore modelled from the specification (each such definition carries a
`Modelled from the spec:` doc comment).  The frontend functions
(`filterTrades` of TradeLogsPage, `handleSaveApiKeys` of HomePage) are
embedded from their TypeScript sources.

Prices and sizes are modelled as rationals; the per-(user,symbol)
serialization of the Execution Dispatcher (spec section 4.2, "at most one
in-flight execution per (userId, symbol)", FIFO queueing) is represented
by sequential application of `dispatch`.
-/

namespace SignalTrader

namespace Core

/-- Modelled from the spec: trade-signal actions (section 3, TradeSignal). -/
inductive Action
  | buy
  | sell
  | close
deriving DecidableEq

/-- Modelled from the spec: position sides (section 3, Position). -/
inductive Side
  | LONG
  | SHORT
deriving DecidableEq

/-- Modelled from the spec: position status (section 3, Position). -/
inductive PStatus
  | OPEN
  | CLOSED
deriving DecidableEq

/-- Modelled from the spec: trade ledger results (section 3, Trade). -/
inductive TradeResult
  | SUCCESS
  | FAILED
  | SIMULATED
deriving DecidableEq

/-- Modelled from the spec: a canonical trade signal (section 3); the
price may be absent for a `close` signal. -/
structure TradeSignal where
  action : Action
  symbol : String
  price : Option ℚ
deriving DecidableEq

/-- Modelled from the spec: a position record (section 3).  The
`openedAt`/`closedAt` timestamps and the per-position stop-loss /
take-profit percentages are bookkeeping not touched by the verified
behaviour and are omitted. -/
structure Position where
  id : Nat
  userId : Nat
  symbol : String
  side : Side
  entryPrice : ℚ
  size : ℚ
  highestFavorablePrice : ℚ
  trailingStopEnabled : Bool
  trailingStopPercent : ℚ
  status : PStatus
  isPaper : Bool
deriving DecidableEq

/-- Modelled from the spec: an append-only trade ledger entry (section 3);
exchange metadata and timestamps omitted. -/
structure Trade where
  id : Nat
  userId : Nat
  positionId : Option Nat
  action : Action
  symbol : String
  price : ℚ
  size : ℚ
  result : TradeResult
deriving DecidableEq

/-- Modelled from the spec: per-user configuration consumed at
signal-processing time (section 3, UserTradingSettings). -/
structure UserSettings where
  defaultPositionSize : ℚ
  slippage : ℚ
  paperTradingEnabled : Bool
  trailingStopEnabled : Bool
  trailingStopPercent : ℚ
deriving DecidableEq

/-- Modelled from the spec: the Position Store together with the trade
ledger (section 4.3); `nextId` supplies fresh identifiers. -/
structure SystemState where
  positions : List Position
  trades : List Trade
  nextId : Nat
deriving DecidableEq

/-- Modelled from the spec: result of one Order Executor / Paper Simulator
call (section 2: returns a fill price or an execution error). -/
inductive ExecResult
  | filled (price : ℚ)
  | failed
deriving DecidableEq

/-- Modelled from the spec: the outcome of dispatching one signal
(section 4.2). -/
inductive Outcome
  | opened
  | closedOut (pnl : ℚ)
  | flipped (pnl : ℚ)
  | noop
  | rejectedNoCreds
  | execFailed
deriving DecidableEq

def sideSign : Side → ℚ
  | Side.LONG => 1
  | Side.SHORT => -1

def sideOfAction : Action → Option Side
  | Action.buy => some Side.LONG
  | Action.sell => some Side.SHORT
  | Action.close => none

/-- Modelled from the spec: the open-position predicate behind
`getOpenPosition(userId, symbol)` (section 4.3). -/
def openPred (u : Nat) (sym : String) (p : Position) : Bool :=
  decide (p.userId = u ∧ p.symbol = sym ∧ p.status = PStatus.OPEN)

/-- Modelled from the spec: `getOpenPosition(userId, symbol)` (section 4.3). -/
def getOpenPosition (st : SystemState) (u : Nat) (sym : String) : Option Position :=
  st.positions.find? (openPred u sym)

/-- Modelled from the spec: `closePosition` (section 4.3) — the OPEN
position for the key is marked CLOSED. -/
def closeOpen (ps : List Position) (u : Nat) (sym : String) : List Position :=
  ps.map (fun p => if openPred u sym p then { p with status := PStatus.CLOSED } else p)

/-- Modelled from the spec: size computed from `default_position_size` and
the current price (section 4.2, step 3). -/
def computeSize (s : UserSettings) (price : ℚ) : ℚ :=
  s.defaultPositionSize / price

/-- Result label for a successful execution: SIMULATED in paper mode,
SUCCESS otherwise (sections 3 and 4.5). -/
def successResult (paper : Bool) : TradeResult :=
  if paper then TradeResult.SIMULATED else TradeResult.SUCCESS

/-- Modelled from the spec: a freshly opened position, with
`highestFavorablePrice = entryPrice` (section 4.2, step 3). -/
def mkPosition (id u : Nat) (sym : String) (side : Side) (entry size : ℚ)
    (s : UserSettings) : Position :=
  { id := id, userId := u, symbol := sym, side := side, entryPrice := entry,
    size := size, highestFavorablePrice := entry,
    trailingStopEnabled := s.trailingStopEnabled,
    trailingStopPercent := s.trailingStopPercent,
    status := PStatus.OPEN, isPaper := s.paperTradingEnabled }

def mkTrade (id u : Nat) (pid : Option Nat) (a : Action) (sym : String)
    (price size : ℚ) (r : TradeResult) : Trade :=
  { id := id, userId := u, positionId := pid, action := a, symbol := sym,
    price := price, size := size, result := r }

/-- Modelled from the spec: `dispatch(signal, settings)` (section 4.2).
The per-(user,symbol) execution slot serializes signals, so concurrent
signals are represented by sequential application.  `hasCreds` abstracts
the CredentialResolver and `exec` the Order Executor / Paper Simulator
call.  An opening signal with no credentials in live mode is rejected
before any order call with no Trade recorded; an executor failure records
a Trade(FAILED) and leaves positions unchanged; a same-direction signal
against an existing OPEN position is a no-op; an opposite-direction signal
is a flip (close then reopen under the same slot); a close with no OPEN
position is a no-op. -/
def dispatch (hasCreds : Bool) (exec : ExecResult) (u : Nat) (sig : TradeSignal)
    (s : UserSettings) (st : SystemState) : SystemState × Outcome :=
  match sideOfAction sig.action with
  | none =>
    match getOpenPosition st u sig.symbol with
    | none => (st, Outcome.noop)
    | some p =>
      match exec with
      | ExecResult.failed =>
        ({ st with
            trades := st.trades ++
              [mkTrade st.nextId u (some p.id) Action.close sig.symbol
                p.entryPrice p.size TradeResult.FAILED],
            nextId := st.nextId + 1 }, Outcome.execFailed)
      | ExecResult.filled exitPrice =>
        ({ positions := closeOpen st.positions u sig.symbol,
           trades := st.trades ++
             [mkTrade st.nextId u (some p.id) Action.close sig.symbol
               exitPrice p.size (successResult p.isPaper)],
           nextId := st.nextId + 1 },
         Outcome.closedOut ((exitPrice - p.entryPrice) * p.size * sideSign p.side))
  | some side =>
    if !s.paperTradingEnabled && !hasCreds then (st, Outcome.rejectedNoCreds)
    else
      match getOpenPosition st u sig.symbol with
      | none =>
        match exec with
        | ExecResult.failed =>
          ({ st with
              trades := st.trades ++
                [mkTrade st.nextId u none sig.action sig.symbol
                  (sig.price.getD 0) 0 TradeResult.FAILED],
              nextId := st.nextId + 1 }, Outcome.execFailed)
        | ExecResult.filled fill =>
          ({ positions := st.positions ++
               [mkPosition st.nextId u sig.symbol side fill (computeSize s fill) s],
             trades := st.trades ++
               [mkTrade (st.nextId + 1) u (some st.nextId) sig.action sig.symbol
                 fill (computeSize s fill) (successResult s.paperTradingEnabled)],
             nextId := st.nextId + 2 }, Outcome.opened)
      | some p =>
        if p.side = side then (st, Outcome.noop)
        else
          match exec with
          | ExecResult.failed =>
            ({ st with
                trades := st.trades ++
                  [mkTrade st.nextId u (some p.id) sig.action sig.symbol
                    (sig.price.getD 0) p.size TradeResult.FAILED],
                nextId := st.nextId + 1 }, Outcome.execFailed)
          | ExecResult.filled fill =>
            ({ positions := closeOpen st.positions u sig.symbol ++
                 [mkPosition (st.nextId + 1) u sig.symbol side fill (computeSize s fill) s],
               trades := st.trades ++
                 [mkTrade st.nextId u (some p.id) Action.close sig.symbol
                    fill p.size (successResult p.isPaper),
                  mkTrade (st.nextId + 2) u (some (st.nextId + 1)) sig.action sig.symbol
                    fill (computeSize s fill) (successResult s.paperTradingEnabled)],
               nextId := st.nextId + 3 },
             Outcome.flipped ((fill - p.entryPrice) * p.size * sideSign p.side))

/-- Modelled from the spec: high-water-mark update (section 4.4, step 2). -/
def updateHfp (side : Side) (current hfp : ℚ) : ℚ :=
  match side with
  | Side.LONG => max current hfp
  | Side.SHORT => min current hfp

/-- Modelled from the spec: trailing stop level (section 4.4, step 3). -/
def stopLevel (side : Side) (hfp pct : ℚ) : ℚ :=
  match side with
  | Side.LONG => hfp * (1 - pct / 100)
  | Side.SHORT => hfp * (1 + pct / 100)

/-- Modelled from the spec: adverse crossing test (section 4.4, step 4). -/
def stopTriggered (side : Side) (current lvl : ℚ) : Bool :=
  match side with
  | Side.LONG => decide (current ≤ lvl)
  | Side.SHORT => decide (lvl ≤ current)

/-- Modelled from the spec: one Monitor step on one position (section 4.4,
steps 2 to 4); returns the updated position and the number of close
executions invoked for it. -/
def monitorPosition (current : ℚ) (p : Position) : Position × Nat :=
  if p.status = PStatus.OPEN ∧ p.trailingStopEnabled = true then
    if stopTriggered p.side current
        (stopLevel p.side (updateHfp p.side current p.highestFavorablePrice)
          p.trailingStopPercent) then
      ({ p with
          highestFavorablePrice := updateHfp p.side current p.highestFavorablePrice,
          status := PStatus.CLOSED }, 1)
    else
      ({ p with
          highestFavorablePrice := updateHfp p.side current p.highestFavorablePrice }, 0)
  else (p, 0)

/-- Modelled from the spec: section 4.4, step 1 — a failed market-data
fetch skips the position this cycle with no state change. -/
def monitorFetch (price : Option ℚ) (p : Position) : Position × Nat :=
  match price with
  | none => (p, 0)
  | some c => monitorPosition c p

/-- Modelled from the spec: one Monitor sweep (section 4.4); positions are
processed independently and `price` abstracts the Market Data Accessor. -/
def monitorSweep (price : Nat → String → Option ℚ) (st : SystemState) :
    SystemState × Nat :=
  let rs := st.positions.map (fun p => monitorFetch (price p.userId p.symbol) p)
  ({ st with positions := rs.map Prod.fst }, (rs.map Prod.snd).sum)

/-- Number of OPEN positions held for a (userId, symbol) key. -/
def countOpen (st : SystemState) (u : Nat) (sym : String) : Nat :=
  st.positions.countP (openPred u sym)

/-- The spec invariant (sections 3 and 8): at most one OPEN position per
(userId, symbol). -/
def UniqueOpen (st : SystemState) : Prop :=
  ∀ u sym, countOpen st u sym ≤ 1

def initialState : SystemState := { positions := [], trades := [], nextId := 0 }

/-- States reachable from the empty store by dispatched signals and
monitor sweeps. -/
inductive Reachable : SystemState → Prop
  | init : Reachable initialState
  | dispatchStep (hc : Bool) (e : ExecResult) (u : Nat) (sig : TradeSignal)
      (s : UserSettings) {st : SystemState} :
      Reachable st → Reachable (dispatch hc e u sig s st).1
  | monitorStep (price : Nat → String → Option ℚ) {st : SystemState} :
      Reachable st → Reachable (monitorSweep price st).1

/-- A sample live-mode settings record used to instantiate theorems. -/
def defaultSettings : UserSettings :=
  { defaultPositionSize := 100, slippage := 1 / 2, paperTradingEnabled := false,
    trailingStopEnabled := true, trailingStopPercent := 1 }

/-- A sample paper-mode settings record used to instantiate theorems. -/
def paperSettings : UserSettings :=
  { defaultPositionSize := 100, slippage := 1 / 2, paperTradingEnabled := true,
    trailingStopEnabled := true, trailingStopPercent := 1 }

/-- Modelled from the spec: the raw webhook payload `{action, symbol,
price}` (section 6), each field possibly absent. -/
structure RawPayload where
  action : Option String
  symbol : Option String
  price : Option String
deriving DecidableEq

/-- Modelled from the spec: validation failure cases (section 4.1). -/
inductive ValidationError
  | badAction
  | badSymbol
  | badPrice
deriving DecidableEq

/-- Modelled from the spec: the accepted action strings (section 4.1). -/
def parseAction (a : String) : Option Action :=
  if a = "buy" then some Action.buy
  else if a = "sell" then some Action.sell
  else if a = "close" then some Action.close
  else none

/-- Value of a digit string, `none` when empty or non-numeric. -/
def digitsVal (l : List Char) : Option Nat :=
  match l with
  | [] => none
  | _ =>
    l.foldl
      (fun acc c =>
        match acc with
        | none => none
        | some n => if c.isDigit then some (n * 10 + (c.toNat - 48)) else none)
      (some 0)

/-- Modelled from the spec: parse a decimal price literal into a rational
(section 4.1, "price (parseable positive decimal)"). -/
def parseDecimal (s : String) : Option ℚ :=
  match s.splitOn "." with
  | [i] => (digitsVal i.data).map (fun n => (n : ℚ))
  | [i, f] =>
    match digitsVal i.data, digitsVal f.data with
    | some a, some b => some ((a : ℚ) + (b : ℚ) / (10 : ℚ) ^ f.length)
    | _, _ => none
  | _ => none

/-- Modelled from the spec: `validate(rawPayload) -> TradeSignal |
ValidationError` (section 4.1): action must be buy/sell/close, symbol
non-empty (returned uppercase-normalized), price a parseable positive
decimal, with price optional for close.  Pure: no side effect beyond the
returned value. -/
def validate (p : RawPayload) : Except ValidationError TradeSignal :=
  match p.action with
  | none => Except.error ValidationError.badAction
  | some a =>
    match parseAction a with
    | none => Except.error ValidationError.badAction
    | some act =>
      match p.symbol with
      | none => Except.error ValidationError.badSymbol
      | some sym =>
        if sym = "" then Except.error ValidationError.badSymbol
        else
          match p.price with
          | some prs =>
            match parseDecimal prs with
            | none => Except.error ValidationError.badPrice
            | some q =>
              if 0 < q then Except.ok ⟨act, sym.toUpper, some q⟩
              else Except.error ValidationError.badPrice
          | none =>
            if act = Action.close then Except.ok ⟨act, sym.toUpper, none⟩
            else Except.error ValidationError.badPrice

/-- The claim's condition on the action field: one of buy, sell, close. -/
def ActionOk (p : RawPayload) : Prop :=
  p.action = some "buy" ∨ p.action = some "sell" ∨ p.action = some "close"

/-- The claim's condition on the symbol field: present and non-empty. -/
def SymbolOk (p : RawPayload) : Prop :=
  ∃ s, p.symbol = some s ∧ s ≠ ""

/-- The claim's condition on the price field: parses as a positive
decimal, or is absent while the action is close. -/
def PriceOk (p : RawPayload) : Prop :=
  (∃ prs q, p.price = some prs ∧ parseDecimal prs = some q ∧ 0 < q) ∨
    (p.price = none ∧ p.action = some "close")

end Core

namespace Frontend

/-- A trade row as fetched by TradeLogsPage (TradeLogsPage.tsx, lines
10 to 20). -/
structure Trade where
  id : String
  timestamp : String
  action : String
  symbol : String
  price : ℚ
  size : ℚ
  exchange : String
  result : String
deriving DecidableEq

/-- `sub` occurs at the head of `l`. -/
def leadsWith : List Char → List Char → Bool
  | _, [] => true
  | [], _ :: _ => false
  | a :: as, b :: bs => decide (a = b) && leadsWith as bs

/-- `sub` occurs somewhere in `l` (the semantics of JavaScript
`String.prototype.includes`). -/
def containsChars (l sub : List Char) : Bool :=
  match l with
  | [] => leadsWith [] sub
  | c :: t => leadsWith (c :: t) sub || containsChars t sub

/-- Case-insensitive substring test mirroring
`trade.symbol.toLowerCase().includes(symbolFilter.toLowerCase())`
(TradeLogsPage.tsx, line 64). -/
def containsCI (s sub : String) : Bool :=
  containsChars s.toLower.data sub.toLower.data

/-- `filterTrades` from TradeLogsPage.tsx (lines 59 to 76): the fetched
trades are first narrowed by the symbol filter when it is non-empty, then
by the date filter when it is non-empty.  `toUtcDate` abstracts
`new Date(ts).toISOString().split('T')[0]`, the UTC calendar date of a
timestamp string. -/
def filterTrades (toUtcDate : String → String) (symbolFilter dateFilter : String)
    (trades : List Trade) : List Trade :=
  let f1 :=
    if symbolFilter.isEmpty then trades
    else trades.filter (fun t => containsCI t.symbol symbolFilter)
  if dateFilter.isEmpty then f1
  else f1.filter (fun t => toUtcDate t.timestamp == dateFilter)

/-- The credential-entry state of HomePage (HomePage.tsx, lines 21 to 24). -/
structure HomeState where
  apiKey : String
  apiSecret : String
  saving : Bool
deriving DecidableEq

/-- Observable effects performed by HomePage handlers. -/
inductive Effect
  | setSaving (b : Bool)
  | request (apiKey apiSecret exchange : String)
  | toastDestructive
  | toastWarning
  | toastSuccess
  | statusUpdate
deriving DecidableEq

/-- The three ways the `/set-api-key` call can come back: a success
response, a response with `success = false`, or a thrown network error. -/
inductive SaveResponse
  | ok
  | fail
  | netError
deriving DecidableEq

/-- `handleSaveApiKeys` from HomePage.tsx (lines 34 to 81): an empty key
or secret short-circuits with a destructive toast before `setSaving` or
the fetch; otherwise the request is sent, the response drives the toast,
and on success the entered fields are cleared. -/
def handleSaveApiKeys (exchange : String) (st : HomeState) (resp : SaveResponse) :
    HomeState × List Effect :=
  if st.apiKey.isEmpty || st.apiSecret.isEmpty then
    (st, [Effect.toastDestructive])
  else
    match resp with
    | SaveResponse.ok =>
      ({ st with apiKey := "", apiSecret := "", saving := false },
        [Effect.setSaving true, Effect.request st.apiKey st.apiSecret exchange,
          Effect.toastSuccess, Effect.statusUpdate, Effect.setSaving false])
    | SaveResponse.fail =>
      ({ st with saving := false },
        [Effect.setSaving true, Effect.request st.apiKey st.apiSecret exchange,
          Effect.toastWarning, Effect.setSaving false])
    | SaveResponse.netError =>
      ({ st with saving := false },
        [Effect.setSaving true, Effect.request st.apiKey st.apiSecret exchange,
          Effect.toastDestructive, Effect.setSaving false])

/-- Whether an effect list contains a network request to `/set-api-key`. -/
def hasRequest (effects : List Effect) : Bool :=
  effects.any (fun e =>
    match e with
    | Effect.request _ _ _ => true
    | _ => false)

end Frontend

namespace Core

theorem openPred_set_closed (u : Nat) (sym : String) (p : Position) :
    openPred u sym { p with status := PStatus.CLOSED } = false := by
  simp [openPred]

theorem openPred_of_ne (u u' : Nat) (sym sym' : String) (p : Position)
    (hne : ¬(u' = u ∧ sym' = sym)) (hp : openPred u sym p = true) :
    openPred u' sym' p = false := by
  simp only [openPred, decide_eq_true_eq] at hp
  simp only [openPred, decide_eq_false_iff_not]
  rintro ⟨h1, h2, _⟩
  exact hne ⟨by rw [← h1, hp.1], by rw [← h2, hp.2.1]⟩

theorem closeOpen_countP_self (ps : List Position) (u : Nat) (sym : String) :
    (closeOpen ps u sym).countP (openPred u sym) = 0 := by
  rw [closeOpen, List.countP_map]
  apply List.countP_eq_zero.mpr
  intro a _
  cases hc : openPred u sym a with
  | false => simp [Function.comp, hc]
  | true => simp [Function.comp, hc, openPred_set_closed]

theorem closeOpen_countP_le (ps : List Position) (u : Nat) (sym : String)
    (u' : Nat) (sym' : String) :
    (closeOpen ps u sym).countP (openPred u' sym') ≤ ps.countP (openPred u' sym') := by
  rw [closeOpen, List.countP_map]
  apply List.countP_mono_left
  intro a _ h
  cases hc : openPred u sym a with
  | false => simpa [Function.comp, hc] using h
  | true => simp [Function.comp, hc, openPred_set_closed] at h

theorem countP_append_singleton (l : List Position) (x : Position) (p : Position → Bool) :
    (l ++ [x]).countP p = l.countP p + (if p x then 1 else 0) := by
  rw [List.countP_append]
  cases hx : p x <;> simp [List.countP_cons, hx]

theorem monitorFetch_openPred (price : Option ℚ) (p : Position) (u : Nat) (sym : String)
    (h : openPred u sym (monitorFetch price p).1 = true) : openPred u sym p = true := by
  cases price with
  | none => exact h
  | some c =>
    simp only [monitorFetch, monitorPosition] at h
    by_cases hcond : p.status = PStatus.OPEN ∧ p.trailingStopEnabled = true
    · rw [if_pos hcond] at h
      split at h
      · simp [openPred] at h
      · simp only [openPred, decide_eq_true_eq] at h ⊢
        exact ⟨h.1, h.2.1, h.2.2⟩
    · rwa [if_neg hcond] at h

theorem monitorSweep_countOpen_le (price : Nat → String → Option ℚ) (st : SystemState)
    (u : Nat) (sym : String) :
    countOpen (monitorSweep price st).1 u sym ≤ countOpen st u sym := by
  simp only [monitorSweep, countOpen, List.map_map, List.countP_map]
  apply List.countP_mono_left
  intro a _ h
  exact monitorFetch_openPred _ _ _ _ (by simpa [Function.comp] using h)

theorem getOpenPosition_eq_none (st : SystemState) (u : Nat) (sym : String) :
    getOpenPosition st u sym = none ↔ countOpen st u sym = 0 := by
  rw [getOpenPosition, countOpen, List.find?_eq_none, List.countP_eq_zero]

theorem openPred_mkPosition (u id : Nat) (sym : String) (side : Side)
    (entry size : ℚ) (s : UserSettings) :
    openPred u sym (mkPosition id u sym side entry size s) = true := by
  simp [openPred, mkPosition]

theorem dispatch_positions_cases (hc : Bool) (e : ExecResult) (u : Nat)
    (sig : TradeSignal) (s : UserSettings) (st : SystemState) :
    (dispatch hc e u sig s st).1.positions = st.positions ∨
    (dispatch hc e u sig s st).1.positions = closeOpen st.positions u sig.symbol ∨
    (∃ P, openPred u sig.symbol P = true ∧ countOpen st u sig.symbol = 0 ∧
      (dispatch hc e u sig s st).1.positions = st.positions ++ [P]) ∨
    (∃ P, openPred u sig.symbol P = true ∧
      (dispatch hc e u sig s st).1.positions = closeOpen st.positions u sig.symbol ++ [P]) := by
  rcases hside : sideOfAction sig.action with _ | side
  · rcases hopen : getOpenPosition st u sig.symbol with _ | p
    · left; simp [dispatch, hside, hopen]
    · cases e with
      | filled pr => right; left; simp [dispatch, hside, hopen]
      | failed => left; simp [dispatch, hside, hopen]
  · cases hcr : (!s.paperTradingEnabled && !hc) with
    | true => left; simp [dispatch, hside, hcr]
    | false =>
      rcases hopen : getOpenPosition st u sig.symbol with _ | p
      · cases e with
        | failed => left; simp [dispatch, hside, hcr, hopen]
        | filled pr =>
          right; right; left
          refine ⟨mkPosition st.nextId u sig.symbol side pr (computeSize s pr) s,
            openPred_mkPosition _ _ _ _ _ _ _,
            (getOpenPosition_eq_none st u sig.symbol).mp hopen, ?_⟩
          simp [dispatch, hside, hcr, hopen]
      · by_cases hps : p.side = side
        · left; simp [dispatch, hside, hcr, hopen, hps]
        · cases e with
          | failed => left; simp [dispatch, hside, hcr, hopen, hps]
          | filled pr =>
            right; right; right
            refine ⟨mkPosition (st.nextId + 1) u sig.symbol side pr (computeSize s pr) s,
              openPred_mkPosition _ _ _ _ _ _ _, ?_⟩
            simp [dispatch, hside, hcr, hopen, hps]

theorem dispatch_uniqueOpen (hc : Bool) (e : ExecResult) (u : Nat) (sig : TradeSignal)
    (s : UserSettings) (st : SystemState) (h : UniqueOpen st) :
    UniqueOpen (dispatch hc e u sig s st).1 := by
  intro u' sym'
  rcases dispatch_positions_cases hc e u sig s st with
    hpos | hpos | ⟨P, hP, h0, hpos⟩ | ⟨P, hP, hpos⟩
  · unfold countOpen
    rw [hpos]
    exact h u' sym'
  · unfold countOpen
    rw [hpos]
    exact le_trans (closeOpen_countP_le _ _ _ _ _) (h u' sym')
  · unfold countOpen
    rw [hpos, countP_append_singleton]
    by_cases hk : u' = u ∧ sym' = sig.symbol
    · rcases hk with ⟨rfl, rfl⟩
      unfold countOpen at h0
      rw [h0]
      simp [hP]
    · rw [openPred_of_ne _ _ _ _ _ hk hP]
      simpa using h u' sym'
  · unfold countOpen
    rw [hpos, countP_append_singleton]
    by_cases hk : u' = u ∧ sym' = sig.symbol
    · rcases hk with ⟨rfl, rfl⟩
      rw [closeOpen_countP_self]
      simp [hP]
    · rw [openPred_of_ne _ _ _ _ _ hk hP]
      simpa using le_trans (closeOpen_countP_le _ _ _ _ _) (h u' sym')

theorem monitorSweep_uniqueOpen (price : Nat → String → Option ℚ) (st : SystemState)
    (h : UniqueOpen st) : UniqueOpen (monitorSweep price st).1 := by
  intro u sym
  exact le_trans (monitorSweep_countOpen_le price st u sym) (h u sym)

theorem reachable_uniqueOpen (st : SystemState) (h : Reachable st) : UniqueOpen st := by
  induction h with
  | init => intro u sym; simp [countOpen, initialState]
  | dispatchStep hc e u sig s _ ih => exact dispatch_uniqueOpen hc e u sig s _ ih
  | monitorStep price _ ih => exact monitorSweep_uniqueOpen price _ ih

theorem dispatch_close_none (hc : Bool) (e : ExecResult) (u : Nat) (sym : String)
    (prOpt : Option ℚ) (s : UserSettings) (st : SystemState)
    (hnone : getOpenPosition st u sym = none) :
    dispatch hc e u ⟨Action.close, sym, prOpt⟩ s st = (st, Outcome.noop) := by
  simp [dispatch, sideOfAction, hnone]

theorem dispatch_close_filled (hc : Bool) (u : Nat) (sym : String) (prOpt : Option ℚ)
    (exitPrice : ℚ) (s : UserSettings) (st : SystemState) (p : Position)
    (hopen : getOpenPosition st u sym = some p) :
    dispatch hc (ExecResult.filled exitPrice) u ⟨Action.close, sym, prOpt⟩ s st =
      ({ positions := closeOpen st.positions u sym,
         trades := st.trades ++
           [mkTrade st.nextId u (some p.id) Action.close sym exitPrice p.size
             (successResult p.isPaper)],
         nextId := st.nextId + 1 },
       Outcome.closedOut ((exitPrice - p.entryPrice) * p.size * sideSign p.side)) := by
  simp [dispatch, sideOfAction, hopen]

theorem dispatch_open_filled (hc : Bool) (u : Nat) (a : Action) (side : Side)
    (sym : String) (prOpt : Option ℚ) (fill : ℚ) (s : UserSettings) (st : SystemState)
    (hside : sideOfAction a = some side)
    (hcr : (!s.paperTradingEnabled && !hc) = false)
    (hnone : getOpenPosition st u sym = none) :
    dispatch hc (ExecResult.filled fill) u ⟨a, sym, prOpt⟩ s st =
      ({ positions := st.positions ++
           [mkPosition st.nextId u sym side fill (computeSize s fill) s],
         trades := st.trades ++
           [mkTrade (st.nextId + 1) u (some st.nextId) a sym fill (computeSize s fill)
             (successResult s.paperTradingEnabled)],
         nextId := st.nextId + 2 }, Outcome.opened) := by
  simp [dispatch, hside, hcr, hnone]

theorem dispatch_same_side_noop (hc : Bool) (e : ExecResult) (u : Nat) (a : Action)
    (side : Side) (sym : String) (prOpt : Option ℚ) (s : UserSettings)
    (st : SystemState) (p : Position) (hside : sideOfAction a = some side)
    (hcr : (!s.paperTradingEnabled && !hc) = false)
    (hopen : getOpenPosition st u sym = some p) (hps : p.side = side) :
    dispatch hc e u ⟨a, sym, prOpt⟩ s st = (st, Outcome.noop) := by
  simp [dispatch, hside, hcr, hopen, hps]

/-- Claim C1: for every reachable system state and every (userId, symbol)
pair, at most one Position with status OPEN exists for that pair, and
every operation that mutates positions — the Execution Dispatcher
(open/close/flip) and the Trailing-Stop Monitor sweep (update/close) —
preserves this invariant. -/
theorem claim_C1_unique_open_invariant :
    (∀ hc e u sig s st, UniqueOpen st → UniqueOpen (dispatch hc e u sig s st).1) ∧
    (∀ price st, UniqueOpen st → UniqueOpen (monitorSweep price st).1) ∧
    (∀ st, Reachable st → UniqueOpen st) :=
  ⟨fun hc e u sig s st h => dispatch_uniqueOpen hc e u sig s st h,
   fun price st h => monitorSweep_uniqueOpen price st h,
   fun st h => reachable_uniqueOpen st h⟩

/-- Claim C1 witness: the invariant holds at a concrete reachable state. -/
theorem claim_C1_unique_open_invariant_witness :
    UniqueOpen (dispatch true (ExecResult.filled 50000) 1
      ⟨Action.buy, "BTCUSDT", some 50000⟩ defaultSettings initialState).1 :=
  claim_C1_unique_open_invariant.2.2 _
    (Reachable.dispatchStep true (ExecResult.filled 50000) 1
      ⟨Action.buy, "BTCUSDT", some 50000⟩ defaultSettings Reachable.init)

/-- Claim C3: on an OPEN position with the trailing stop enabled, a
Monitor cycle updates `highestFavorablePrice` to `max(current, hfp)` for
LONG (`min` for SHORT), computes the stop level as `hfp * (1 - pct/100)`
for LONG (`hfp * (1 + pct/100)` for SHORT), and exactly when the current
price has crossed it adversely (LONG: `current <= stopLevel`) it invokes
exactly one close execution and the position transitions from OPEN to
CLOSED; otherwise no close is invoked and the position stays OPEN. -/
theorem claim_C3_monitor_cycle (c : ℚ) (p : Position)
    (hOpen : p.status = PStatus.OPEN) (hTs : p.trailingStopEnabled = true) :
    (∀ h₀ : ℚ, updateHfp Side.LONG c h₀ = max c h₀) ∧
    (∀ h₀ : ℚ, updateHfp Side.SHORT c h₀ = min c h₀) ∧
    (∀ h₀ pct : ℚ, stopLevel Side.LONG h₀ pct = h₀ * (1 - pct / 100)) ∧
    (∀ h₀ pct : ℚ, stopLevel Side.SHORT h₀ pct = h₀ * (1 + pct / 100)) ∧
    (∀ cur lvl : ℚ, stopTriggered Side.LONG cur lvl = true ↔ cur ≤ lvl) ∧
    (monitorPosition c p).1.highestFavorablePrice =
      updateHfp p.side c p.highestFavorablePrice ∧
    (stopTriggered p.side c
        (stopLevel p.side (updateHfp p.side c p.highestFavorablePrice)
          p.trailingStopPercent) = true →
      (monitorPosition c p).2 = 1 ∧
        (monitorPosition c p).1.status = PStatus.CLOSED) ∧
    (stopTriggered p.side c
        (stopLevel p.side (updateHfp p.side c p.highestFavorablePrice)
          p.trailingStopPercent) = false →
      (monitorPosition c p).2 = 0 ∧
        (monitorPosition c p).1.status = PStatus.OPEN) := by
  refine ⟨fun h₀ => rfl, fun h₀ => rfl, fun h₀ pct => rfl, fun h₀ pct => rfl,
    fun cur lvl => by simp [stopTriggered], ?_, ?_, ?_⟩
  · unfold monitorPosition
    rw [if_pos ⟨hOpen, hTs⟩]
    split <;> rfl
  · intro htr
    unfold monitorPosition
    rw [if_pos ⟨hOpen, hTs⟩, if_pos htr]
    exact ⟨rfl, rfl⟩
  · intro htr
    unfold monitorPosition
    rw [if_pos ⟨hOpen, hTs⟩, if_neg (by simp [htr])]
    exact ⟨rfl, hOpen⟩

/-- Claim C3 witness: a LONG position with high-water mark 110 and a 10
percent trailing stop is closed by exactly one close execution when the
price drops to 90 (stop level 99). -/
theorem claim_C3_monitor_cycle_witness :
    (monitorPosition 90
        ⟨0, 1, "BTCUSDT", Side.LONG, 100, 1, 110, true, 10, PStatus.OPEN, false⟩).2 = 1 ∧
      (monitorPosition 90
        ⟨0, 1, "BTCUSDT", Side.LONG, 100, 1, 110, true, 10, PStatus.OPEN, false⟩).1.status =
        PStatus.CLOSED := by
  have h := claim_C3_monitor_cycle 90
    ⟨0, 1, "BTCUSDT", Side.LONG, 100, 1, 110, true, 10, PStatus.OPEN, false⟩ rfl rfl
  exact h.2.2.2.2.2.2.1 (by norm_num [stopTriggered, stopLevel, updateHfp, max_def])

/-- Claim C4: for a LONG position, the stop level
`hfp * (1 - trailingStopPercent/100)` is monotone in the high-water mark,
and one monitor step never lowers the high-water mark; hence over
successive monitor cycles with non-decreasing `highestFavorablePrice`
observations the trailing stop level never retreats.  The trailing
percentage is assumed to be at most 100 (every configurable value, 0.1 to
10, satisfies this). -/
theorem claim_C4_stop_level_monotone (p : Position) (c : ℚ)
    (hside : p.side = Side.LONG) (hpct : p.trailingStopPercent ≤ 100) :
    (∀ h₁ h₂ : ℚ, h₁ ≤ h₂ →
      stopLevel Side.LONG h₁ p.trailingStopPercent ≤
        stopLevel Side.LONG h₂ p.trailingStopPercent) ∧
    p.highestFavorablePrice ≤ (monitorPosition c p).1.highestFavorablePrice ∧
    stopLevel Side.LONG p.highestFavorablePrice p.trailingStopPercent ≤
      stopLevel Side.LONG (monitorPosition c p).1.highestFavorablePrice
        p.trailingStopPercent := by
  have hfac : (0 : ℚ) ≤ 1 - p.trailingStopPercent / 100 := by linarith
  have hmono : ∀ h₁ h₂ : ℚ, h₁ ≤ h₂ →
      stopLevel Side.LONG h₁ p.trailingStopPercent ≤
        stopLevel Side.LONG h₂ p.trailingStopPercent := by
    intro h₁ h₂ hle
    simpa [stopLevel] using mul_le_mul_of_nonneg_right hle hfac
  have hh : p.highestFavorablePrice ≤ (monitorPosition c p).1.highestFavorablePrice := by
    unfold monitorPosition
    split
    · split <;> simp [updateHfp, hside, le_max_right]
    · exact le_refl _
  exact ⟨hmono, hh, hmono _ _ hh⟩

/-- Claim C4 witness: at a concrete LONG position and price the stop
level does not retreat. -/
theorem claim_C4_stop_level_monotone_witness :
    stopLevel Side.LONG 110 10 ≤
      stopLevel Side.LONG
        (monitorPosition 120
          ⟨0, 1, "BTCUSDT", Side.LONG, 100, 1, 110, true, 10, PStatus.OPEN, false⟩).1.highestFavorablePrice
        10 :=
  (claim_C4_stop_level_monotone
    ⟨0, 1, "BTCUSDT", Side.LONG, 100, 1, 110, true, 10, PStatus.OPEN, false⟩ 120
    rfl (by norm_num)).2.2

theorem getOpenPosition_after_open (u : Nat) (sym : String) (prOpt : Option ℚ)
    (a : Action) (side : Side) (fill : ℚ) (s : UserSettings) (st : SystemState)
    (hside : sideOfAction a = some side)
    (hcr : (!s.paperTradingEnabled && !(true : Bool)) = false)
    (hnone : getOpenPosition st u sym = none) :
    getOpenPosition (dispatch true (ExecResult.filled fill) u ⟨a, sym, prOpt⟩ s st).1 u sym
      = some (mkPosition st.nextId u sym side fill (computeSize s fill) s) := by
  rw [dispatch_open_filled true u a side sym prOpt fill s st hside hcr hnone]
  unfold getOpenPosition at hnone ⊢
  simp [List.find?_append, hnone, openPred_mkPosition]

/-- Claim C2: two identical buy signals for a user with no OPEN position
for the symbol, serialized FIFO by the per-(user,symbol) execution slot
(represented as sequential dispatch of the queued second signal after the
first), leave exactly one OPEN position for the pair and append exactly
one Trade with result SUCCESS; the second signal observes the already-open
position and becomes a no-op instead of opening a duplicate. -/
theorem claim_C2_identical_buys_serialized (u : Nat) (sym : String) (pr : ℚ)
    (s : UserSettings) (st : SystemState)
    (hpaper : s.paperTradingEnabled = false)
    (h0 : countOpen st u sym = 0) :
    countOpen (dispatch true (ExecResult.filled pr) u ⟨Action.buy, sym, some pr⟩ s
        (dispatch true (ExecResult.filled pr) u ⟨Action.buy, sym, some pr⟩ s st).1).1
      u sym = 1 ∧
    (dispatch true (ExecResult.filled pr) u ⟨Action.buy, sym, some pr⟩ s
        (dispatch true (ExecResult.filled pr) u ⟨Action.buy, sym, some pr⟩ s st).1).1.trades
      = st.trades ++
        [mkTrade (st.nextId + 1) u (some st.nextId) Action.buy sym pr (computeSize s pr)
          TradeResult.SUCCESS] ∧
    (dispatch true (ExecResult.filled pr) u ⟨Action.buy, sym, some pr⟩ s
        (dispatch true (ExecResult.filled pr) u ⟨Action.buy, sym, some pr⟩ s st).1).2
      = Outcome.noop := by
  have hnone : getOpenPosition st u sym = none := (getOpenPosition_eq_none st u sym).mpr h0
  have hcr : (!s.paperTradingEnabled && !(true : Bool)) = false := by simp
  have h1 := dispatch_open_filled true u Action.buy Side.LONG sym (some pr) pr s st rfl hcr hnone
  have hopen1 := getOpenPosition_after_open u sym (some pr) Action.buy Side.LONG pr s st rfl hcr hnone
  have h2 := dispatch_same_side_noop true (ExecResult.filled pr) u Action.buy Side.LONG
    sym (some pr) s _ _ rfl hcr hopen1 rfl
  refine ⟨?_, ?_, ?_⟩
  · rw [h2, h1]
    unfold countOpen at h0 ⊢
    simp [countP_append_singleton, h0, openPred_mkPosition]
  · rw [h2, h1]
    simp [successResult, hpaper]
  · rw [h2]

/-- Claim C2 witness: at a concrete burst of two identical buy signals,
exactly one OPEN position results. -/
theorem claim_C2_identical_buys_serialized_witness :
    countOpen (dispatch true (ExecResult.filled 50000) 1
        ⟨Action.buy, "BTCUSDT", some 50000⟩ defaultSettings
        (dispatch true (ExecResult.filled 50000) 1
          ⟨Action.buy, "BTCUSDT", some 50000⟩ defaultSettings initialState).1).1
      1 "BTCUSDT" = 1 :=
  (claim_C2_identical_buys_serialized 1 "BTCUSDT" 50000 defaultSettings initialState
    rfl rfl).1

/-- Claim C6: an opening signal in live mode with no configured
credentials is rejected before any order call, with the state — including
the trade ledger — completely unchanged (no Trade record is created); and
when the Order Executor fails, all Position state is left unchanged (no
partial commit) and whenever an order call was attempted (outcome
`execFailed`) exactly one Trade with result FAILED is appended. -/
theorem claim_C6_failure_handling :
    (∀ (u : Nat) (sig : TradeSignal) (s : UserSettings) (st : SystemState)
        (side : Side) (e : ExecResult), sideOfAction sig.action = some side →
      s.paperTradingEnabled = false →
      dispatch false e u sig s st = (st, Outcome.rejectedNoCreds)) ∧
    (∀ (hc : Bool) (u : Nat) (sig : TradeSignal) (s : UserSettings) (st : SystemState),
      (dispatch hc ExecResult.failed u sig s st).1.positions = st.positions ∧
      ((dispatch hc ExecResult.failed u sig s st).2 = Outcome.execFailed →
        ∃ t, (dispatch hc ExecResult.failed u sig s st).1.trades = st.trades ++ [t] ∧
          t.result = TradeResult.FAILED)) := by
  constructor
  · intro u sig s st side e hside hpaper
    simp [dispatch, hside, hpaper]
  · intro hc u sig s st
    rcases hside : sideOfAction sig.action with _ | side
    · rcases hopen : getOpenPosition st u sig.symbol with _ | p
      · refine ⟨by simp [dispatch, hside, hopen], fun hout => ?_⟩
        simp [dispatch, hside, hopen] at hout
      · refine ⟨by simp [dispatch, hside, hopen], fun _ => ?_⟩
        exact ⟨mkTrade st.nextId u (some p.id) Action.close sig.symbol p.entryPrice
          p.size TradeResult.FAILED, by simp [dispatch, hside, hopen], rfl⟩
    · cases hcr : (!s.paperTradingEnabled && !hc) with
      | true =>
        refine ⟨by simp [dispatch, hside, hcr], fun hout => ?_⟩
        simp [dispatch, hside, hcr] at hout
      | false =>
        rcases hopen : getOpenPosition st u sig.symbol with _ | p
        · refine ⟨by simp [dispatch, hside, hcr, hopen], fun _ => ?_⟩
          exact ⟨mkTrade st.nextId u none sig.action sig.symbol (sig.price.getD 0) 0
            TradeResult.FAILED, by simp [dispatch, hside, hcr, hopen], rfl⟩
        · by_cases hps : p.side = side
          · refine ⟨by simp [dispatch, hside, hcr, hopen, hps], fun hout => ?_⟩
            simp [dispatch, hside, hcr, hopen, hps] at hout
          · refine ⟨by simp [dispatch, hside, hcr, hopen, hps], fun _ => ?_⟩
            exact ⟨mkTrade st.nextId u (some p.id) sig.action sig.symbol
              (sig.price.getD 0) p.size TradeResult.FAILED,
              by simp [dispatch, hside, hcr, hopen, hps], rfl⟩

/-- Claim C6 witness: a concrete credential-less buy is rejected with no
state change, and a concrete failed execution leaves positions unchanged. -/
theorem claim_C6_failure_handling_witness :
    dispatch false (ExecResult.filled 50000) 1 ⟨Action.buy, "BTCUSDT", some 50000⟩
        defaultSettings initialState = (initialState, Outcome.rejectedNoCreds) ∧
    (dispatch true ExecResult.failed 1 ⟨Action.buy, "BTCUSDT", some 50000⟩
        defaultSettings initialState).1.positions = initialState.positions :=
  ⟨claim_C6_failure_handling.1 1 ⟨Action.buy, "BTCUSDT", some 50000⟩ defaultSettings
      initialState Side.LONG (ExecResult.filled 50000) rfl rfl,
    (claim_C6_failure_handling.2 true 1 ⟨Action.buy, "BTCUSDT", some 50000⟩
      defaultSettings initialState).1⟩

theorem getOpenPosition_after_paper_open (u : Nat) (sym : String) (prOpt : Option ℚ)
    (fill : ℚ) (s : UserSettings) (st : SystemState)
    (hpaper : s.paperTradingEnabled = true)
    (hnone : getOpenPosition st u sym = none) :
    getOpenPosition (dispatch false (ExecResult.filled fill) u ⟨Action.buy, sym, prOpt⟩ s st).1 u sym
      = some (mkPosition st.nextId u sym Side.LONG fill (computeSize s fill) s) := by
  rw [dispatch_open_filled false u Action.buy Side.LONG sym prOpt fill s st rfl
    (by simp [hpaper]) hnone]
  unfold getOpenPosition at hnone ⊢
  simp [List.find?_append, hnone, openPred_mkPosition]

/-- Claim C7: in paper-trading mode, a buy that fills at `entry` followed
by a close that fills at a higher `exitPrice` appends exactly two Trade
ledger entries with result SIMULATED, and the realized PnL is exactly
`(exitPrice - entry) * size` — no fees and no slippage enter the
simulated fills. -/
theorem claim_C7_paper_pnl (u : Nat) (sym : String) (entry exitPrice : ℚ)
    (s : UserSettings) (st : SystemState)
    (hpaper : s.paperTradingEnabled = true)
    (h0 : countOpen st u sym = 0) (_hrise : entry < exitPrice) :
    (dispatch false (ExecResult.filled exitPrice) u ⟨Action.close, sym, none⟩ s
        (dispatch false (ExecResult.filled entry) u ⟨Action.buy, sym, some entry⟩ s st).1).1.trades
      = st.trades ++
        [mkTrade (st.nextId + 1) u (some st.nextId) Action.buy sym entry
           (computeSize s entry) TradeResult.SIMULATED,
         mkTrade (st.nextId + 2) u (some st.nextId) Action.close sym exitPrice
           (computeSize s entry) TradeResult.SIMULATED] ∧
    (dispatch false (ExecResult.filled exitPrice) u ⟨Action.close, sym, none⟩ s
        (dispatch false (ExecResult.filled entry) u ⟨Action.buy, sym, some entry⟩ s st).1).2
      = Outcome.closedOut ((exitPrice - entry) * computeSize s entry) := by
  have hnone : getOpenPosition st u sym = none := (getOpenPosition_eq_none st u sym).mpr h0
  have h1 := dispatch_open_filled false u Action.buy Side.LONG sym (some entry) entry s st
    rfl (by simp [hpaper]) hnone
  have hopen1 := getOpenPosition_after_paper_open u sym (some entry) entry s st hpaper hnone
  have h2 := dispatch_close_filled false u sym none exitPrice s _ _ hopen1
  constructor
  · rw [h2]
    show (dispatch false (ExecResult.filled entry) u ⟨Action.buy, sym, some entry⟩ s st).1.trades
        ++ _ = _
    rw [h1]
    simp [mkPosition, successResult, hpaper]
  · rw [h2]
    simp [mkPosition, sideSign]

/-- Claim C7 witness: a concrete paper buy at 100 closed at 110 with
position size 100/100 realizes a PnL of 10. -/
theorem claim_C7_paper_pnl_witness :
    (dispatch false (ExecResult.filled 110) 1 ⟨Action.close, "BTCUSDT", none⟩
        paperSettings
        (dispatch false (ExecResult.filled 100) 1 ⟨Action.buy, "BTCUSDT", some 100⟩
          paperSettings initialState).1).2 = Outcome.closedOut 10 := by
  have h := (claim_C7_paper_pnl 1 "BTCUSDT" 100 110 paperSettings initialState rfl rfl
    (by norm_num)).2
  rw [h]
  norm_num [computeSize, paperSettings]

/-- Claim C8: dispatching a close signal for a (userId, symbol) whose
position store holds no OPEN position (in particular when the position is
already CLOSED, as after a re-delivered webhook payload) is a safe no-op:
the state is returned unchanged — no new Position, no mutated Position or
Trade — and the outcome is `noop`, not an error. -/
theorem claim_C8_close_noop (hc : Bool) (e : ExecResult) (u : Nat) (sym : String)
    (prOpt : Option ℚ) (s : UserSettings) (st : SystemState)
    (hnone : getOpenPosition st u sym = none) :
    dispatch hc e u ⟨Action.close, sym, prOpt⟩ s st = (st, Outcome.noop) :=
  dispatch_close_none hc e u sym prOpt s st hnone

/-- Claim C8 witness: re-delivering a close for an already CLOSED
position leaves the state untouched. -/
theorem claim_C8_close_noop_witness :
    dispatch true ExecResult.failed 1 ⟨Action.close, "BTCUSDT", none⟩ defaultSettings
      { positions := [⟨0, 1, "BTCUSDT", Side.LONG, 100, 1, 110, true, 10,
          PStatus.CLOSED, false⟩], trades := [], nextId := 1 } =
    ({ positions := [⟨0, 1, "BTCUSDT", Side.LONG, 100, 1, 110, true, 10,
          PStatus.CLOSED, false⟩], trades := [], nextId := 1 }, Outcome.noop) :=
  claim_C8_close_noop true ExecResult.failed 1 "BTCUSDT" none defaultSettings _ rfl

theorem parseAction_mem (a : String) (act : Action) (h : parseAction a = some act) :
    a = "buy" ∨ a = "sell" ∨ a = "close" := by
  unfold parseAction at h
  split_ifs at h with h1 h2 h3
  · exact Or.inl h1
  · exact Or.inr (Or.inl h2)
  · exact Or.inr (Or.inr h3)

theorem parseAction_close (a : String) (h : parseAction a = some Action.close) :
    a = "close" := by
  unfold parseAction at h
  split_ifs at h with h1 h2 h3
  · simp at h
  · simp at h
  · exact h3

theorem validate_ok_iff (p : RawPayload) :
    (∃ sig, validate p = Except.ok sig) ↔ ActionOk p ∧ SymbolOk p ∧ PriceOk p := by
  constructor
  · rintro ⟨sig, h⟩
    rcases hA : p.action with _ | a
    · rw [show validate p = Except.error ValidationError.badAction from
        by simp [validate, hA]] at h
      cases h
    · rcases hPA : parseAction a with _ | act
      · rw [show validate p = Except.error ValidationError.badAction from
          by simp [validate, hA, hPA]] at h
        cases h
      · rcases hS : p.symbol with _ | sym
        · rw [show validate p = Except.error ValidationError.badSymbol from
            by simp [validate, hA, hPA, hS]] at h
          cases h
        · by_cases hse : sym = ""
          · rw [show validate p = Except.error ValidationError.badSymbol from
              by simp [validate, hA, hPA, hS, hse]] at h
            cases h
          · have hAct : ActionOk p := by
              rcases parseAction_mem a act hPA with h1 | h1 | h1 <;>
                simp [ActionOk, hA, h1]
            have hSym : SymbolOk p := ⟨sym, hS, hse⟩
            rcases hP : p.price with _ | prs
            · by_cases hact : act = Action.close
              · refine ⟨hAct, hSym, Or.inr ⟨hP, ?_⟩⟩
                rw [hA, parseAction_close a (hact ▸ hPA)]
              · rw [show validate p = Except.error ValidationError.badPrice from
                  by simp [validate, hA, hPA, hS, hse, hP, hact]] at h
                cases h
            · rcases hPD : parseDecimal prs with _ | q
              · rw [show validate p = Except.error ValidationError.badPrice from
                  by simp [validate, hA, hPA, hS, hse, hP, hPD]] at h
                cases h
              · by_cases hq : 0 < q
                · exact ⟨hAct, hSym, Or.inl ⟨prs, q, hP, hPD, hq⟩⟩
                · rw [show validate p = Except.error ValidationError.badPrice from
                    by simp [validate, hA, hPA, hS, hse, hP, hPD, hq]] at h
                  cases h
  · rintro ⟨hAct, ⟨sym, hS, hse⟩, hP⟩
    obtain ⟨a, hA, ha⟩ : ∃ a, p.action = some a ∧
        (a = "buy" ∨ a = "sell" ∨ a = "close") := by
      rcases hAct with h | h | h
      · exact ⟨"buy", h, Or.inl rfl⟩
      · exact ⟨"sell", h, Or.inr (Or.inl rfl)⟩
      · exact ⟨"close", h, Or.inr (Or.inr rfl)⟩
    obtain ⟨act, hPA⟩ : ∃ act, parseAction a = some act := by
      rcases ha with h | h | h <;> rw [h] <;> exact ⟨_, rfl⟩
    rcases hP with ⟨prs, q, hPp, hPD, hq⟩ | ⟨hPp, hclose⟩
    · exact ⟨⟨act, sym.toUpper, some q⟩, by
        simp [validate, hA, hPA, hS, hse, hPp, hPD, hq]⟩
    · have haclose : a = "close" := by
        rw [hA] at hclose
        injection hclose
      have hactclose : act = Action.close := by
        rw [haclose] at hPA
        exact (Option.some.inj ((rfl :
          parseAction "close" = some Action.close).symm.trans hPA)).symm
      exact ⟨⟨act, sym.toUpper, none⟩, by
        simp [validate, hA, hPA, hS, hse, hPp, hactclose]⟩

/-- Claim C5: `validate(rawPayload)` returns a canonical TradeSignal if
and only if the payload's action is one of buy, sell, close, its symbol
is present and non-empty, and its price parses as a positive decimal
(where the price may be absent when the action is close); the returned
signal carries the uppercase-normalized symbol, and every other payload
yields a ValidationError.  `validate` is a pure function, so it has no
side effect beyond the returned result. -/
theorem claim_C5_validate_contract (p : RawPayload) :
    ((∃ sig, validate p = Except.ok sig) ↔ ActionOk p ∧ SymbolOk p ∧ PriceOk p) ∧
    (∀ sig, validate p = Except.ok sig →
      ∃ s, p.symbol = some s ∧ sig.symbol = s.toUpper) ∧
    (∀ err, validate p = Except.error err →
      ¬(ActionOk p ∧ SymbolOk p ∧ PriceOk p)) := by
  refine ⟨validate_ok_iff p, ?_, ?_⟩
  · intro sig h
    rcases hA : p.action with _ | a
    · rw [show validate p = Except.error ValidationError.badAction from
        by simp [validate, hA]] at h
      cases h
    · rcases hPA : parseAction a with _ | act
      · rw [show validate p = Except.error ValidationError.badAction from
          by simp [validate, hA, hPA]] at h
        cases h
      · rcases hS : p.symbol with _ | sym
        · rw [show validate p = Except.error ValidationError.badSymbol from
            by simp [validate, hA, hPA, hS]] at h
          cases h
        · by_cases hse : sym = ""
          · rw [show validate p = Except.error ValidationError.badSymbol from
              by simp [validate, hA, hPA, hS, hse]] at h
            cases h
          · rcases hP : p.price with _ | prs
            · by_cases hact : act = Action.close
              · rw [show validate p =
                    Except.ok ⟨act, sym.toUpper, none⟩ from
                  by simp [validate, hA, hPA, hS, hse, hP, hact]] at h
                refine ⟨sym, rfl, ?_⟩
                injection h with h'
                rw [← h']
              · rw [show validate p = Except.error ValidationError.badPrice from
                  by simp [validate, hA, hPA, hS, hse, hP, hact]] at h
                cases h
            · rcases hPD : parseDecimal prs with _ | q
              · rw [show validate p = Except.error ValidationError.badPrice from
                  by simp [validate, hA, hPA, hS, hse, hP, hPD]] at h
                cases h
              · by_cases hq : 0 < q
                · rw [show validate p =
                      Except.ok ⟨act, sym.toUpper, some q⟩ from
                    by simp [validate, hA, hPA, hS, hse, hP, hPD, hq]] at h
                  refine ⟨sym, rfl, ?_⟩
                  injection h with h'
                  rw [← h']
                · rw [show validate p = Except.error ValidationError.badPrice from
                    by simp [validate, hA, hPA, hS, hse, hP, hPD, hq]] at h
                  cases h
  · intro err herr hcond
    rcases (validate_ok_iff p).mpr hcond with ⟨sig, hok⟩
    rw [herr] at hok
    cases hok

/-- Claim C5 witness: a close payload with no price and a lowercase
symbol is accepted. -/
theorem claim_C5_validate_contract_witness :
    ∃ sig, validate ⟨some "close", some "btcusdt", none⟩ = Except.ok sig :=
  (claim_C5_validate_contract ⟨some "close", some "btcusdt", none⟩).1.mpr
    ⟨Or.inr (Or.inr rfl), ⟨"btcusdt", rfl, by decide⟩, Or.inr ⟨rfl, rfl⟩⟩

end Core

namespace Frontend

/-- Claim C9: `filterTrades` computes exactly the set of fetched trades
passing both the case-insensitive symbol-substring filter (trivially
passed when the symbol filter is empty) and the UTC calendar-date filter
(trivially passed when the date filter is empty); in particular, with
both filters empty — e.g., after `clearFilters` — every fetched trade is
shown.  Being a pure function of the trades list, filtering never mutates
the underlying array. -/
theorem claim_C9_filterTrades_spec (toUtcDate : String → String) (sf df : String)
    (ts : List Trade) :
    filterTrades toUtcDate sf df ts =
      ts.filter (fun t => (sf.isEmpty || containsCI t.symbol sf) &&
        (df.isEmpty || toUtcDate t.timestamp == df)) ∧
    filterTrades toUtcDate "" "" ts = ts := by
  constructor
  · unfold filterTrades
    cases hsf : sf.isEmpty <;> cases hdf : df.isEmpty
    · simp only [Bool.false_eq_true, if_false, List.filter_filter, Bool.false_or]
      exact List.filter_congr (fun x _ => Bool.and_comm _ _)
    · simp [Bool.and_true]
    · simp
    · simp
  · rfl

/-- Claim C10: `handleSaveApiKeys` invoked while apiKey or apiSecret is
empty performs no network request to `/set-api-key` and leaves the state
— the saving flag and the entered credential fields — unchanged,
producing only a destructive error toast; a request effect is emitted
only when both apiKey and apiSecret are non-empty. -/
theorem claim_C10_handleSaveApiKeys_guard :
    (∀ ex st resp, (st.apiKey.isEmpty || st.apiSecret.isEmpty) = true →
      handleSaveApiKeys ex st resp = (st, [Effect.toastDestructive])) ∧
    (∀ ex st resp, hasRequest (handleSaveApiKeys ex st resp).2 = true →
      st.apiKey.isEmpty = false ∧ st.apiSecret.isEmpty = false) := by
  constructor
  · intro ex st resp h
    simp [handleSaveApiKeys, h]
  · intro ex st resp h
    cases hk : st.apiKey.isEmpty <;> cases hs : st.apiSecret.isEmpty
    · exact ⟨rfl, rfl⟩
    · simp [handleSaveApiKeys, hk, hs, hasRequest] at h
    · simp [handleSaveApiKeys, hk, hs, hasRequest] at h
    · simp [handleSaveApiKeys, hk, hs, hasRequest] at h

/-- Claim C10 witness: an empty apiKey short-circuits with only a
destructive toast and an unchanged state. -/
theorem claim_C10_handleSaveApiKeys_guard_witness :
    handleSaveApiKeys "binance" ⟨"", "secret123", false⟩ SaveResponse.ok =
      (⟨"", "secret123", false⟩, [Effect.toastDestructive]) :=
  claim_C10_handleSaveApiKeys_guard.1 "binance" ⟨"", "secret123", false⟩
    SaveResponse.ok rfl

end Frontend

end SignalTrader
